import Mathlib

/-
Verification of the watch event pipeline of pkg/compose/watch.go.

The Go source is shallowly embedded as executable Lean definitions:

* Path strings are manipulated through their underlying character lists
  (String.data), so every definition reduces in the kernel.
* The Go standard library helpers used by the source (filepath.Clean,
  filepath.IsAbs, filepath.Join, filepath.Rel, path.Join,
  strings.HasPrefix) are embedded for the Unix separator, which is the
  convention the spec describes.  filepath.Clean is embedded by its
  standard component-stack formulation; filepath.Rel by its
  component-level formulation (both are the documented lexical
  semantics of the Go functions).
* External collaborators (the filesystem notifier, the ignore-matcher
  construction, the sync and rebuild collaborators, service lookup) are
  parameters of the embedded functions, mirroring the error type of the
  Go interfaces.
* Time is modelled as Nat (milliseconds); machine integer overflow is
  irrelevant at the durations involved.
-/

/-! ## Character-list path helpers (Go stdlib, Unix rules) -/

/-- Splits a character list on the separator, like strings.Split(s, "/").
An empty input yields one empty field. -/
def splitSlash : List Char → List (List Char)
  | [] => [[]]
  | c :: rest =>
    let r := splitSlash rest
    if c = '/' then [] :: r
    else
      match r with
      | h :: t => (c :: h) :: t
      | [] => [[c]]

/-- Joins components with the separator, like strings.Join(l, "/"). -/
def joinSlash : List (List Char) → List Char
  | [] => []
  | [x] => x
  | x :: xs => x ++ '/' :: joinSlash xs

/-- True when the character list begins with the separator. -/
def isSlashHead : List Char → Bool
  | '/' :: _ => true
  | _ => false

/-- One step of the component stack underlying filepath.Clean: empty and
dot components are dropped, dot-dot pops a previous component (or is kept
for a relative path, or dropped at the root), anything else is pushed.
The stack is kept reversed (most recent component first). -/
def cleanFoldL (rooted : Bool) (stack : List (List Char)) (c : List Char) : List (List Char) :=
  if c = [] ∨ c = ['.'] then stack
  else if c = ['.', '.'] then
    match stack with
    | top :: rest => if top = ['.', '.'] then c :: stack else rest
    | [] => if rooted then [] else [c]
  else c :: stack

/-- filepath.Clean (Unix) on a character list: lexically shortest
equivalent path.  Returns a dot for an empty result, keeps the leading
separator of a rooted path. -/
def cleanL (l : List Char) : List Char :=
  if l = [] then ['.']
  else
    let rooted := isSlashHead l
    let body := joinSlash (((splitSlash l).foldl (cleanFoldL rooted) []).reverse)
    if rooted then '/' :: body
    else if body = [] then ['.'] else body

/-- filepath.Clean (Unix). -/
def goClean (p : String) : String := String.mk (cleanL p.data)

/-- filepath.IsAbs (Unix): the path starts with the separator. -/
def goIsAbs (p : String) : Bool := isSlashHead p.data

/-- filepath.Join on two elements (Unix); identical to path.Join on two
elements: skip leading empty elements, then clean the separator join. -/
def goJoin2 (a b : String) : String :=
  if a = "" then if b = "" then "" else goClean b
  else goClean (a ++ "/" ++ b)

/-- path.Join on two elements (forward-slash container paths); on Unix
this coincides with filepath.Join. -/
def goPathJoin (a b : String) : String := goJoin2 a b

/-- Path elements of a cleaned path: the leading separator of a rooted
path is not an element, and the root itself has no elements. -/
def pathCompsL : List Char → List (List Char)
  | [] => []
  | '/' :: rest => if rest = [] then [] else splitSlash rest
  | l => splitSlash l

/-- Drops the longest common component prefix of two component lists,
like the first-differing-element scan inside filepath.Rel. -/
def dropCommon : List (List Char) → List (List Char) → List (List Char) × List (List Char)
  | a :: as, b :: bs => if a = b then dropCommon as bs else (a :: as, b :: bs)
  | as, bs => (as, bs)

/-- filepath.Rel (Unix): both paths are cleaned, equal paths yield a dot,
mixed rooted and relative paths fail, the common component prefix is
dropped, a remaining dot-dot base component fails, and the result climbs
out of the remaining base components before descending into the
remaining target components. -/
def goRel (basepath targpath : String) : Except String String :=
  let base := cleanL basepath.data
  let targ := cleanL targpath.data
  if base = targ then .ok "."
  else
    let base := if base = ['.'] then [] else base
    if isSlashHead base ≠ isSlashHead targ then
      .error ("Rel: cannot make " ++ targpath ++ " relative to " ++ basepath)
    else
      let belems := if base = [] then [] else pathCompsL base
      let telems := pathCompsL targ
      let p := dropCommon belems telems
      if p.1.head? = some ['.', '.'] then
        .error ("Rel: cannot make " ++ targpath ++ " relative to " ++ basepath)
      else
        .ok (String.mk (joinSlash (List.replicate p.1.length ['.', '.'] ++ p.2)))

/-- strings.HasPrefix: raw character-sequence containment at the front,
with no path-component awareness. -/
def strHasPre (pre s : String) : Bool := List.isPrefixOf pre.data s.data

/-- Modelled from the spec: the containment check watch.IsChild from
package github.com/docker/compose/v2/pkg/watch, whose source is not part
of src/.  Per the spec, the host path must be a descendant of (or equal
to) the trigger path, with exact path-element semantics, not substring
comparison. -/
def isChild (dir file : String) : Bool :=
  if dir = "" then false
  else
    let d := cleanL dir.data
    let f := cleanL file.data
    (isSlashHead d == isSlashHead f) && List.isPrefixOf (pathCompsL d) (pathCompsL f)

/-! ## Data model (watch.go) -/

/-- The action strings of type WatchAction in watch.go. -/
abbrev WatchAction := String

/-- WatchActionSync in watch.go. -/
def WatchActionSync : WatchAction := "sync"

/-- WatchActionRebuild in watch.go. -/
def WatchActionRebuild : WatchAction := "rebuild"

/-- The debounce quiet period of watch.go, in milliseconds. -/
def quietPeriod : Nat := 500

/-- sync.PathMapping: the host path of a change and its mapped
container-side path (empty when no target directory is configured). -/
structure PathMapping where
  HostPath : String
  ContainerPath : String
deriving DecidableEq, Repr

/-- fileEvent in watch.go: an embedded sync.PathMapping plus the action
of the matched trigger.  Two events are equal exactly when all three
fields are equal, which is the map-key equality the debouncer uses. -/
structure fileEvent where
  pathMapping : PathMapping
  Action : WatchAction
deriving DecidableEq, Repr

/-- Trigger in watch.go: one watch rule of the x-develop extension. -/
structure Trigger where
  Path : String
  Action : String
  Target : String
  Ignore : List String
deriving DecidableEq, Repr

/-- types.ServiceVolumeConfig restricted to the two fields watch.go
reads: whether the volume has a bind section, and its source path. -/
structure ServiceVolumeConfig where
  Bind : Bool
  Source : String
deriving DecidableEq, Repr

/-- A compose service restricted to the fields the watch orchestrator
reads: its name, the decoded x-develop extension (none when the service
declares no watch extension), whether it has a build section, and its
volume list. -/
structure ServiceModel where
  name : String
  xdevelop : Option (List Trigger)
  hasBuild : Bool
  volumes : List ServiceVolumeConfig
deriving DecidableEq, Repr

/-- True when an Except value is an error. -/
def exceptIsErr {ε α : Type} : Except ε α → Bool
  | .error _ => true
  | .ok _ => false

/-! ## Event classifier (maybeFileEvent, watch.go lines 236-269) -/

/-- maybeFileEvent: classifies one raw host-path change against a
trigger.  The ignore predicate is the composed matcher, an external
collaborator that may fail; per the source, a matcher error is logged
and nil is returned.  The container path is computed only for a
non-empty target by rebasing the host path from the trigger path onto
the target with path.Join. -/
def maybeFileEvent (trigger : Trigger) (hostPath : String)
    (ignore : String → Except String Bool) : Option fileEvent :=
  if ¬ isChild trigger.Path hostPath then none
  else
    match ignore hostPath with
    | .error _ => none
    | .ok true => none
    | .ok false =>
      if trigger.Target ≠ "" then
        match goRel trigger.Path hostPath with
        | .error _ => none
        | .ok rel => some ⟨⟨hostPath, goPathJoin trigger.Target rel⟩, trigger.Action⟩
      else some ⟨⟨hostPath, ""⟩, trigger.Action⟩

/-! ## Trigger resolver (loadDevelopmentConfig, watch.go lines 271-306) -/

/-- The path normalisation applied to one trigger: a relative path is
joined onto the resolved working directory, symlink resolution is
attempted best-effort (the resolve parameter stands for
filepath.EvalSymlinks; none models its failure, in which case the
unresolved path is kept), and the result is cleaned. -/
def resolveTrigger (resolve : String → Option String) (baseDir : String)
    (t : Trigger) : Trigger :=
  let p := if goIsAbs t.Path then t.Path else goJoin2 baseDir t.Path
  let p := match resolve p with
           | some q => q
           | none => p
  { t with Path := goClean p }

/-- The per-trigger loop of loadDevelopmentConfig: each trigger is
normalised, an empty resolved path is rejected, and a rebuild trigger on
a service without a build section is rejected. -/
def loadTriggers (resolve : String → Option String) (baseDir : String)
    (serviceName : String) (hasBuild : Bool) : List Trigger → Except String (List Trigger)
  | [] => .ok []
  | t :: rest =>
    let t := resolveTrigger resolve baseDir t
    if t.Path = "" then .error "watch rules MUST define a path"
    else if t.Action = WatchActionRebuild ∧ hasBuild = false then
      .error ("service " ++ serviceName ++ " does not have a build section, cannot apply rebuild on watch")
    else (loadTriggers resolve baseDir serviceName hasBuild rest).map (t :: ·)

/-- loadDevelopmentConfig: none when the service has no x-develop
extension; otherwise the working directory must have been resolved
through symlinks (baseDir is none when filepath.EvalSymlinks failed on
it, which is fatal) and every trigger is normalised and validated. -/
def loadDevelopmentConfig (resolve : String → Option String)
    (baseDir : Option String) (s : ServiceModel) : Except String (Option (List Trigger)) :=
  match s.xdevelop with
  | none => .ok none
  | some ts =>
    match baseDir with
    | none => .error "resolving symlink for working directory"
    | some base => (loadTriggers resolve base s.name s.hasBuild ts).map some

/-! ## Bind-mount exclusion and the orchestrator (Watch, watch.go lines 87-173, 358-365) -/

/-- checkIfPathAlreadyBindMounted: a watch path is excluded when some
volume has a bind section and the watch path begins with the raw
character sequence of the volume source (strings.HasPrefix). -/
def checkIfPathAlreadyBindMounted (watchPath : String)
    (volumes : List ServiceVolumeConfig) : Bool :=
  volumes.any (fun volume => volume.Bind && strHasPre volume.Source watchPath)

/-- The path-collection loop of Watch (lines 141-148): the paths handed
to the filesystem watcher are the trigger paths that are not already
bind mounted. -/
def collectPaths (volumes : List ServiceVolumeConfig) : List Trigger → List String
  | [] => []
  | t :: rest =>
    if checkIfPathAlreadyBindMounted t.Path volumes then collectPaths volumes rest
    else t.Path :: collectPaths volumes rest

/-- The outcome of the Watch orchestrator: its result, and the watchers
that were started before it returned, as pairs of a service name and the
paths that watcher monitors. -/
structure WatchResult where
  result : Except String Unit
  started : List (String × List String)

/-- The per-service loop of Watch.  The external constructions that
watch.go performs after validation (dockerignore loading, matcher
construction, watcher construction and start) are modelled as
succeeding; each service that reaches them records a started watcher.
The per-service goroutines launched afterwards are runtime behaviour
outside this function result, so a completed loop returns ok. -/
def watchLoop (resolve : String → Option String) (baseDir : Option String)
    (selected : List String) :
    List ServiceModel → Bool → List (String × List String) → WatchResult
  | [], watching, started =>
    if watching then ⟨.ok (), started⟩
    else ⟨.error "none of the selected services is configured for watch, consider setting an x-develop section", started⟩
  | s :: rest, watching, started =>
    match loadDevelopmentConfig resolve baseDir s with
    | .error e => ⟨.error e, started⟩
    | .ok none => watchLoop resolve baseDir selected rest watching started
    | .ok (some triggers) =>
      if triggers ≠ [] ∧ s.hasBuild = false then
        ⟨.error ("cannot watch service " ++ s.name ++ " without a build context"), started⟩
      else if selected ≠ [] ∧ s.hasBuild = false then
        ⟨.error ("cannot watch service " ++ s.name ++ " without a build context"), started⟩
      else if selected = [] ∧ s.hasBuild = false then
        watchLoop resolve baseDir selected rest watching started
      else
        watchLoop resolve baseDir selected rest true
          (started ++ [(s.name, collectPaths s.volumes triggers)])

/-- Watch: the orchestrator over the (already selection-filtered)
service list.  The services argument models project.Services after
project.ForServices, and selected models the explicit service selection
argument. -/
def Watch (resolve : String → Option String) (baseDir : Option String)
    (selected : List String) (services : List ServiceModel) : WatchResult :=
  watchLoop resolve baseDir selected services false []

/-! ## Debounce batcher (batchDebounceEvents, watch.go lines 308-356)

The debouncer goroutine owns a map from fileEvent to its last-seen time
and a single ticker.  The map is embedded as an association list kept in
discovery (first-enqueue) order: a Go map update does not move a key, and
the list order carries exactly the first-enqueue information the claims
speak about.  Go map iteration order is unspecified, so the enumeration
that flushEvents ranges over before the stable sort is a parameter
(chooser); a faithful chooser returns some permutation of the pending
entries.  Time stamps are the Nat times at which the driver delivers the
events (time.Now at the receive). -/

/-- The state of the debouncer goroutine: the pending seen-set with
last-observed times in discovery order, the absolute time of the next
ticker fire, and the batches emitted so far. -/
structure DebounceState where
  seen : List (fileEvent × Nat)
  nextTick : Nat
  out : List (List fileEvent)
deriving DecidableEq, Repr

/-- The map write seen[e] = now: an existing equal key keeps its
position and gets the new time, a new key is appended. -/
def upsert : List (fileEvent × Nat) → fileEvent → Nat → List (fileEvent × Nat)
  | [], e, t => [(e, t)]
  | (x, tx) :: rest, e, t =>
    if x = e then (x, t) :: rest else (x, tx) :: upsert rest e t

/-- The body of flushEvents once the map has been enumerated: a stable
sort ascending by last-observed time (sort.SliceStable with a strict
Before comparator is the unique stable order by the time key, which
insertion sort by non-strict comparison computes), then the events. -/
def flushEnum (enum : List (fileEvent × Nat)) : List fileEvent :=
  (enum.insertionSort (fun a b => a.2 ≤ b.2)).map Prod.fst

/-- flushEvents: an empty seen-set is a no-op; otherwise one batch is
appended, built from an enumeration of the seen-set, and the seen-set is
cleared.  The ticker is not touched. -/
def flushState (chooser : List (fileEvent × Nat) → List (fileEvent × Nat))
    (s : DebounceState) : DebounceState :=
  if s.seen = [] then s
  else { seen := [], nextTick := s.nextTick, out := s.out ++ [flushEnum (chooser s.seen)] }

/-- Delivery of one input event at absolute time t: any ticker fire due
at or before t is served first (several due fires collapse to one flush,
since a flush empties the seen-set and further fires are no-ops), then
the event is upserted with time t and the ticker is reset to fire a full
delay after t. -/
def debounceRecv (delay : Nat) (chooser : List (fileEvent × Nat) → List (fileEvent × Nat))
    (s : DebounceState) (t : Nat) (e : fileEvent) : DebounceState :=
  let s1 := if s.nextTick ≤ t then flushState chooser s else s
  { seen := upsert s1.seen e t, nextTick := t + delay, out := s1.out }

/-- The debouncer run over a timed input trace, from the initial state:
empty seen-set, first ticker fire one delay after start, no output. -/
def debounceRun (delay : Nat) (chooser : List (fileEvent × Nat) → List (fileEvent × Nat))
    (inputs : List (Nat × fileEvent)) : DebounceState :=
  inputs.foldl (fun s p => debounceRecv delay chooser s p.1 p.2) ⟨[], delay, []⟩

/-- The ticker-fire branch of the select loop: flushEvents. -/
def debounceTick (chooser : List (fileEvent × Nat) → List (fileEvent × Nat))
    (s : DebounceState) : DebounceState :=
  flushState chooser s

/-- The input-channel-closed branch: flushEvents, then the goroutine
returns and the deferred close(out) runs.  The value is the complete
output of the channel. -/
def debounceClosed (chooser : List (fileEvent × Nat) → List (fileEvent × Nat))
    (s : DebounceState) : List (List fileEvent) :=
  (flushState chooser s).out

/-- The ctx.Done branch: the goroutine returns at once and the deferred
close(out) runs; flushEvents is not called.  The value is the complete
output of the channel. -/
def debounceCancelled (s : DebounceState) : List (List fileEvent) :=
  s.out

/-! ## Batch dispatcher (handleWatchBatch, watch.go lines 439-489) -/

/-- An invocation of an external collaborator made by handleWatchBatch:
an Up call (the rebuild/restart collaborator, carrying the service list
its build, create and start options are all restricted to), or a Sync
call on the sync collaborator with the service and the path mappings. -/
inductive WatchCall where
  | up (services : List String)
  | syncCall (service : String) (mappings : List PathMapping)
deriving DecidableEq, Repr

/-- The scan of handleWatchBatch with its accumulated path mappings: the
first rebuild event prints the changed file, invokes Up restricted to
the one service, swallows an Up failure (printed, not returned) and
returns nil, dropping the rest of the batch; with no rebuild event the
batch's path mappings are collected, the service is looked up
(getService) and the sync collaborator is invoked, either failure being
returned to the caller.  The result pairs the returned error with the
trace of collaborator invocations. -/
def handleWatchBatchAux (serviceName : String) (upResult : Except String Unit)
    (getService : Except String String)
    (syncF : String → List PathMapping → Except String Unit) :
    List fileEvent → List PathMapping → Except String Unit × List WatchCall
  | [], acc =>
    match getService with
    | .error e => (.error e, [])
    | .ok svc =>
      match syncF svc acc with
      | .error e => (.error e, [WatchCall.syncCall svc acc])
      | .ok _ => (.ok (), [WatchCall.syncCall svc acc])
  | ev :: rest, acc =>
    if ev.Action = WatchActionRebuild then
      (.ok (), [WatchCall.up [serviceName]])
    else
      handleWatchBatchAux serviceName upResult getService syncF rest (acc ++ [ev.pathMapping])

/-- handleWatchBatch over a batch.  upResult is the outcome the Up call
would have (unused by the result: a rebuild failure is printed and
swallowed), getService the outcome of project.GetService, and syncF the
sync collaborator. -/
def handleWatchBatch (serviceName : String) (batch : List fileEvent)
    (upResult : Except String Unit) (getService : Except String String)
    (syncF : String → List PathMapping → Except String Unit) :
    Except String Unit × List WatchCall :=
  handleWatchBatchAux serviceName upResult getService syncF batch []

/-! ## Sample data used by witnesses and counterexamples -/

/-- A sample sync event. -/
def evA : fileEvent := ⟨⟨"/src/a.go", ""⟩, WatchActionSync⟩

/-- A second, distinct sample sync event. -/
def evB : fileEvent := ⟨⟨"/src/b.go", ""⟩, WatchActionSync⟩

/-- A sample rebuild event. -/
def evR : fileEvent := ⟨⟨"/src/r.go", ""⟩, WatchActionRebuild⟩

/-- The last element of a time list, carrying the previous time as the
default; for a non-empty list the default is irrelevant. -/
def lastFrom (t0 : Nat) : List Nat → Nat
  | [] => t0
  | t :: ts => lastFrom t ts

instance : IsTotal (fileEvent × Nat) (fun a b => a.2 ≤ b.2) :=
  ⟨fun a b => Nat.le_total a.2 b.2⟩

instance : IsTrans (fileEvent × Nat) (fun a b => a.2 ≤ b.2) :=
  ⟨fun _ _ _ h1 h2 => Nat.le_trans h1 h2⟩

/-! ## Helper lemmas -/

theorem cleanL_ne_nil (l : List Char) : cleanL l ≠ [] := by
  unfold cleanL
  split
  · simp
  · dsimp only
    split
    · simp
    · split
      · simp
      · simp_all

theorem goClean_ne_empty (p : String) : goClean p ≠ "" := by
  unfold goClean
  intro h
  exact cleanL_ne_nil p.data (congrArg String.data h)

theorem exceptIsErr_map {ε α β : Type} (f : α → β) (x : Except ε α) :
    exceptIsErr (x.map f) = exceptIsErr x := by
  cases x <;> rfl

theorem except_map_ne_error {ε α β : Type} (f : α → β) (x : Except ε α) (e : ε)
    (hx : x ≠ .error e) : x.map f ≠ .error e := by
  cases x with
  | error e2 => simpa [Except.map] using hx
  | ok a => simp [Except.map]

/-! ## C1: final flush on cancellation -/

/-- C1 counterexample.  The claim states that a run of the debounce
batcher whose pending seen-set is non-empty when the context is
cancelled emits that pending set as one final batch before closing.  In
the source the ctx.Done branch of the select loop returns without
calling flushEvents, so the run below, cancelled with the pending event
still in the seen-set, closes with an empty output: no final batch is
emitted. -/
theorem c1_counterexample :
    (debounceRun quietPeriod id [(100, evA)]).seen = [(evA, 100)] ∧
    debounceCancelled (debounceRun quietPeriod id [(100, evA)]) = [] := by
  exact ⟨rfl, rfl⟩

/-- C1 amended: a run of the debounce batcher whose pending seen-set is
non-empty flushes that pending set as one final batch only when the
input channel is closed; on context cancellation the batcher terminates
and closes its output channel without emitting the pending set, which is
discarded. -/
theorem c1_cancel_discards_close_flushes (delay : Nat)
    (chooser : List (fileEvent × Nat) → List (fileEvent × Nat))
    (inputs : List (Nat × fileEvent))
    (hch : ∀ l, (chooser l).Perm l)
    (hne : (debounceRun delay chooser inputs).seen ≠ []) :
    debounceCancelled (debounceRun delay chooser inputs)
        = (debounceRun delay chooser inputs).out ∧
    ∃ b, debounceClosed chooser (debounceRun delay chooser inputs)
          = (debounceRun delay chooser inputs).out ++ [b] ∧
        b.Perm ((debounceRun delay chooser inputs).seen.map Prod.fst) := by
  refine ⟨rfl, flushEnum (chooser (debounceRun delay chooser inputs).seen), ?_, ?_⟩
  · unfold debounceClosed flushState
    rw [if_neg hne]
  · unfold flushEnum
    exact ((List.perm_insertionSort _ _).map Prod.fst).trans ((hch _).map Prod.fst)

/-- C1 witness: the amended theorem at the concrete cancelled run of the
counterexample. -/
theorem c1_witness :
    debounceCancelled (debounceRun quietPeriod id [(100, evA)])
        = (debounceRun quietPeriod id [(100, evA)]).out ∧
    ∃ b, debounceClosed id (debounceRun quietPeriod id [(100, evA)])
          = (debounceRun quietPeriod id [(100, evA)]).out ++ [b] ∧
        b.Perm ((debounceRun quietPeriod id [(100, evA)]).seen.map Prod.fst) :=
  c1_cancel_discards_close_flushes quietPeriod id [(100, evA)]
    (fun l => List.Perm.refl l) (by decide)

/-! ## C2: batch ordering -/

/-- C2 counterexample.  The claim states that two distinct events with
equal last-observed timestamps appear in the flushed batch in their
discovery (first-enqueue) order.  The flush in the source builds the
pre-sort slice by ranging over a Go map, whose iteration order is
unspecified, and sort.SliceStable is stable only with respect to that
slice order.  The run below discovers evA before evB with equal
timestamps; the reversed enumeration is a permutation of the pending
seen-set, hence an admissible map iteration order, and the batch it
produces is [evB, evA]: the opposite of the discovery order required by
the claim. -/
theorem c2_counterexample :
    (debounceRun quietPeriod id [(100, evA), (100, evB)]).seen
        = [(evA, 100), (evB, 100)] ∧
    List.Perm [(evB, 100), (evA, 100)]
        (debounceRun quietPeriod id [(100, evA), (100, evB)]).seen ∧
    flushEnum [(evB, 100), (evA, 100)] = [evB, evA] := by
  exact ⟨rfl, by decide, rfl⟩

/-- C2 amended: every flushed batch is ordered ascending (non-strictly)
by the last-observed timestamp, and its contents are exactly the pending
distinct events; for equal timestamps the relative order is the stable
order of the map enumeration the flush ranged over, which is
unspecified, and need not be the discovery order. -/
theorem c2_sorted_by_last_seen (seen enum : List (fileEvent × Nat))
    (hperm : enum.Perm seen) :
    List.Pairwise (fun a b : fileEvent × Nat => a.2 ≤ b.2)
        (enum.insertionSort (fun a b => a.2 ≤ b.2)) ∧
    (flushEnum enum).Perm (seen.map Prod.fst) := by
  constructor
  · exact List.sorted_insertionSort _ _
  · unfold flushEnum
    exact ((List.perm_insertionSort _ _).map Prod.fst).trans (hperm.map Prod.fst)

/-- C2 witness: the amended theorem at the reversed enumeration of the
counterexample's pending set. -/
theorem c2_witness :
    List.Pairwise (fun a b : fileEvent × Nat => a.2 ≤ b.2)
        (List.insertionSort (fun a b => a.2 ≤ b.2) [(evB, 100), (evA, 100)]) ∧
    (flushEnum [(evB, 100), (evA, 100)]).Perm
        ([(evA, 100), (evB, 100)].map Prod.fst) :=
  c2_sorted_by_last_seen [(evA, 100), (evB, 100)] [(evB, 100), (evA, 100)] (by decide)

/-! ## C3: rebuild short-circuit -/

theorem handleWatchBatchAux_rebuild (serviceName : String) (up : Except String Unit)
    (gs : Except String String) (sf : String → List PathMapping → Except String Unit)
    (pre : List fileEvent) (ev : fileEvent) (post : List fileEvent)
    (hpre : ∀ x ∈ pre, x.Action ≠ WatchActionRebuild)
    (hev : ev.Action = WatchActionRebuild) :
    ∀ acc, handleWatchBatchAux serviceName up gs sf (pre ++ ev :: post) acc
      = (.ok (), [WatchCall.up [serviceName]]) := by
  induction pre with
  | nil =>
    intro acc
    simp [handleWatchBatchAux, hev]
  | cons x xs ih =>
    intro acc
    have hx : ¬ x.Action = WatchActionRebuild := hpre x (by simp)
    rw [List.cons_append]
    unfold handleWatchBatchAux
    rw [if_neg hx]
    exact ih (fun y hy => hpre y (by simp [hy])) (acc ++ [x.pathMapping])

/-- C3: for every batch with at least one rebuild event, the dispatch
scans in order up to the first rebuild event, invokes the rebuild
collaborator (Up) exactly once with its build, create and start options
all restricted to the one service, invokes the sync collaborator zero
times, returns nil, and ignores every event after the first rebuild (the
result does not depend on post at all). -/
theorem c3_rebuild_short_circuit (serviceName : String) (upResult : Except String Unit)
    (getService : Except String String)
    (syncF : String → List PathMapping → Except String Unit)
    (pre : List fileEvent) (ev : fileEvent) (post : List fileEvent)
    (hpre : ∀ x ∈ pre, x.Action ≠ WatchActionRebuild)
    (hev : ev.Action = WatchActionRebuild) :
    handleWatchBatch serviceName (pre ++ ev :: post) upResult getService syncF
      = (.ok (), [WatchCall.up [serviceName]]) := by
  unfold handleWatchBatch
  exact handleWatchBatchAux_rebuild serviceName upResult getService syncF
    pre ev post hpre hev []

/-- C3 witness: the spec's own scenario, a sync event followed by a
rebuild event, with a failing rebuild collaborator: exactly one Up call
restricted to the service, no sync call, nil result, trailing event
dropped. -/
theorem c3_witness :
    handleWatchBatch "svc" ([evA] ++ evR :: [evB]) (.error "up failed") (.ok "svc")
        (fun _ _ => .ok ()) = (.ok (), [WatchCall.up ["svc"]]) :=
  c3_rebuild_short_circuit "svc" (.error "up failed") (.ok "svc") (fun _ _ => .ok ())
    [evA] evR [evB] (by decide) rfl

/-! ## C4: debounce dedup -/

theorem debounceRun_aux (delay : Nat)
    (chooser : List (fileEvent × Nat) → List (fileEvent × Nat)) (e : fileEvent) :
    ∀ (ts : List Nat) (t0 : Nat),
      List.Chain' (fun a b => a ≤ b ∧ b < a + delay) (t0 :: ts) →
      (ts.map (fun t => (t, e))).foldl (fun s p => debounceRecv delay chooser s p.1 p.2)
          ⟨[(e, t0)], t0 + delay, []⟩
        = ⟨[(e, lastFrom t0 ts)], lastFrom t0 ts + delay, []⟩ := by
  intro ts
  induction ts with
  | nil => intro t0 _; rfl
  | cons t1 rest ih =>
    intro t0 hchain
    have h01 : t0 ≤ t1 ∧ t1 < t0 + delay := (List.chain'_cons.mp hchain).1
    have htail : List.Chain' (fun a b => a ≤ b ∧ b < a + delay) (t1 :: rest) :=
      (List.chain'_cons.mp hchain).2
    have hrecv : debounceRecv delay chooser ⟨[(e, t0)], t0 + delay, []⟩ t1 e
        = ⟨[(e, t1)], t1 + delay, []⟩ := by
      simp [debounceRecv, upsert, if_neg (Nat.not_le.mpr h01.2)]
    rw [List.map_cons, List.foldl_cons, hrecv]
    exact ih t1 htail

/-- C4: for every non-empty train of submissions of one and the same
event, consecutive submissions less than the quiet period apart, the
pending seen-set holds exactly one copy of the event keyed with the time
of the last submission, and the ticker fire after the train (silence
afterwards) emits exactly one batch containing exactly that one copy. -/
theorem c4_debounce_dedup (delay : Nat)
    (chooser : List (fileEvent × Nat) → List (fileEvent × Nat)) (e : fileEvent)
    (ts : List Nat) (hne : ts ≠ [])
    (hchain : List.Chain' (fun a b => a ≤ b ∧ b < a + delay) ts)
    (hch : ∀ l, (chooser l).Perm l) :
    (debounceRun delay chooser (ts.map (fun t => (t, e)))).seen
        = [(e, lastFrom 0 ts)] ∧
    (debounceTick chooser (debounceRun delay chooser (ts.map (fun t => (t, e))))).out
        = [[e]] := by
  obtain ⟨t0, ts2, rfl⟩ := List.exists_cons_of_ne_nil hne
  have hrun : debounceRun delay chooser ((t0 :: ts2).map (fun t => (t, e)))
      = ⟨[(e, lastFrom t0 ts2)], lastFrom t0 ts2 + delay, []⟩ := by
    unfold debounceRun
    rw [List.map_cons, List.foldl_cons]
    have hfirst : debounceRecv delay chooser ⟨[], delay, []⟩ t0 e
        = ⟨[(e, t0)], t0 + delay, []⟩ := by
      simp [debounceRecv, flushState, upsert]
    rw [hfirst]
    exact debounceRun_aux delay chooser e ts2 t0 hchain
  have hsing : chooser [(e, lastFrom t0 ts2)] = [(e, lastFrom t0 ts2)] :=
    List.perm_singleton.mp (hch _)
  refine ⟨by rw [hrun]; simp [lastFrom], ?_⟩
  rw [hrun]
  show (flushState chooser ⟨[(e, lastFrom t0 ts2)], lastFrom t0 ts2 + delay, []⟩).out = [[e]]
  unfold flushState
  rw [if_neg (by simp), hsing]
  rfl

/-- C4 witness: three submissions of the same event at 100, 200 and 300
milliseconds, gaps below the 500 millisecond quiet period: one entry
keyed 300, one batch with one copy. -/
theorem c4_witness :
    (debounceRun quietPeriod id ([100, 200, 300].map (fun t => (t, evA)))).seen
        = [(evA, lastFrom 0 [100, 200, 300])] ∧
    (debounceTick id (debounceRun quietPeriod id
        ([100, 200, 300].map (fun t => (t, evA))))).out = [[evA]] :=
  c4_debounce_dedup quietPeriod id evA [100, 200, 300] (by decide)
    (by simp [List.chain'_cons, List.chain'_singleton, quietPeriod])
    (fun l => List.Perm.refl l)

/-! ## C5: ignore predicate errors -/

/-- C5 counterexample.  The claim states that a predicate error is
treated as not ignored and classification continues, so the change is
not discarded on account of the error.  In the source the error branch
of maybeFileEvent logs a warning and returns nil: below, the same
trigger and contained host path yield no event when the predicate
errors, while yielding an event when the predicate answers not-ignored,
so the change was discarded exactly on account of the predicate
error. -/
theorem c5_counterexample :
    maybeFileEvent ⟨"/src", "sync", "/app", []⟩ "/src/f.go"
        (fun _ => .error "matcher failure") = none ∧
    maybeFileEvent ⟨"/src", "sync", "/app", []⟩ "/src/f.go" (fun _ => .ok false)
        = some ⟨⟨"/src/f.go", "/app/f.go"⟩, "sync"⟩ := by
  exact ⟨rfl, rfl⟩

/-- C5 amended: whenever the ignore predicate returns an error for the
queried host path, the classifier logs a warning and discards the
change, emitting no event. -/
theorem c5_ignore_error_discards (trigger : Trigger) (hostPath : String)
    (ignore : String → Except String Bool) (msg : String)
    (herr : ignore hostPath = .error msg) :
    maybeFileEvent trigger hostPath ignore = none := by
  unfold maybeFileEvent
  rw [herr]
  split <;> rfl

/-- C5 witness: the amended theorem at a concrete erroring predicate. -/
theorem c5_witness :
    maybeFileEvent ⟨"/src", "sync", "/app", []⟩ "/src/g.go"
        (fun _ => .error "boom") = none :=
  c5_ignore_error_discards ⟨"/src", "sync", "/app", []⟩ "/src/g.go"
    (fun _ => .error "boom") "boom" rfl

/-! ## C6: rebuild trigger without build section -/

theorem loadTriggers_isErr (resolve : String → Option String)
    (baseDir serviceName : String) (ts : List Trigger)
    (hr : ∃ t ∈ ts, t.Action = WatchActionRebuild) :
    exceptIsErr (loadTriggers resolve baseDir serviceName false ts) = true := by
  induction ts with
  | nil => simp at hr
  | cons t rest ih =>
    rcases hr with ⟨u, hu, hact⟩
    unfold loadTriggers
    by_cases hp : (resolveTrigger resolve baseDir t).Path = ""
    · rw [if_pos hp]; rfl
    · rw [if_neg hp]
      by_cases ht : t.Action = WatchActionRebuild
      · rw [if_pos ⟨ht, rfl⟩]; rfl
      · rw [if_neg (fun h => ht h.1)]
        rw [exceptIsErr_map]
        rcases List.mem_cons.mp hu with h | h
        · exact absurd (h ▸ hact) ht
        · exact ih ⟨u, h, hact⟩

theorem loadDevelopmentConfig_isErr (resolve : String → Option String)
    (baseDir : Option String) (s : ServiceModel) (ts : List Trigger)
    (hx : s.xdevelop = some ts)
    (hr : ∃ t ∈ ts, t.Action = WatchActionRebuild) (hb : s.hasBuild = false) :
    exceptIsErr (loadDevelopmentConfig resolve baseDir s) = true := by
  unfold loadDevelopmentConfig
  rw [hx]
  cases baseDir with
  | none => rfl
  | some base =>
    show exceptIsErr ((loadTriggers resolve base s.name s.hasBuild ts).map some) = true
    rw [exceptIsErr_map, hb]
    exact loadTriggers_isErr resolve base s.name ts hr

theorem watchLoop_isErr (resolve : String → Option String) (baseDir : Option String)
    (selected : List String) (s : ServiceModel)
    (hs : exceptIsErr (loadDevelopmentConfig resolve baseDir s) = true) :
    ∀ (services : List ServiceModel) (watching : Bool)
      (started : List (String × List String)), s ∈ services →
      exceptIsErr (watchLoop resolve baseDir selected services watching started).result
        = true := by
  intro services
  induction services with
  | nil => intro _ _ h; simp at h
  | cons s0 rest ih =>
    intro watching started hmem
    unfold watchLoop
    cases hload : loadDevelopmentConfig resolve baseDir s0 with
    | error e => rfl
    | ok cfg =>
      rcases List.mem_cons.mp hmem with h | hmem2
      · rw [h, hload] at hs
        exact absurd hs (by simp [exceptIsErr])
      · cases cfg with
        | none => exact ih watching started hmem2
        | some triggers =>
          simp only []
          by_cases h1 : triggers ≠ [] ∧ s0.hasBuild = false
          · rw [if_pos h1]; rfl
          · rw [if_neg h1]
            by_cases h2 : selected ≠ [] ∧ s0.hasBuild = false
            · rw [if_pos h2]; rfl
            · rw [if_neg h2]
              by_cases h3 : selected = [] ∧ s0.hasBuild = false
              · rw [if_pos h3]
                exact ih watching started hmem2
              · rw [if_neg h3]
                exact ih true (started ++ [(s0.name, collectPaths s0.volumes triggers)]) hmem2

/-- C6 amended: a project containing a service that declares a watch
trigger with action rebuild while having no build section makes the
whole Watch invocation fail with a configuration error, regardless of
the failing service's position and of how the other services are
configured; but not necessarily before any filesystem watcher is
started: watchers of validly configured services earlier in the list
have already been started when the error is returned (the failing
service's own watcher is never started). -/
theorem c6_rebuild_without_build_fails (resolve : String → Option String)
    (baseDir : Option String) (selected : List String)
    (services : List ServiceModel) (s : ServiceModel) (ts : List Trigger)
    (hmem : s ∈ services) (hx : s.xdevelop = some ts)
    (hr : ∃ t ∈ ts, t.Action = WatchActionRebuild) (hb : s.hasBuild = false) :
    exceptIsErr (Watch resolve baseDir selected services).result = true :=
  watchLoop_isErr resolve baseDir selected s
    (loadDevelopmentConfig_isErr resolve baseDir s ts hx hr hb)
    services false [] hmem

/-- C6 counterexample.  The claim states the invocation fails before any
filesystem watcher is started, regardless of the failing service's
position.  Below, the first service is validly configured and its
watcher is started inside the per-service loop; only then does the
second service's rebuild-without-build error abort the invocation, so
the started set is non-empty at failure, contradicting the claim. -/
theorem c6_counterexample :
    (Watch (fun _ => none) (some "/proj") []
        [⟨"s1", some [⟨"/src", "sync", "", []⟩], true, []⟩,
         ⟨"s2", some [⟨"/app", "rebuild", "", []⟩], false, []⟩]).result
      = .error "service s2 does not have a build section, cannot apply rebuild on watch" ∧
    (Watch (fun _ => none) (some "/proj") []
        [⟨"s1", some [⟨"/src", "sync", "", []⟩], true, []⟩,
         ⟨"s2", some [⟨"/app", "rebuild", "", []⟩], false, []⟩]).started
      = [("s1", ["/src"])] := by
  exact ⟨rfl, rfl⟩

/-- C6 witness: the amended theorem at a one-service project whose only
service has a rebuild trigger and no build section. -/
theorem c6_witness :
    exceptIsErr (Watch (fun _ => none) (some "/proj") []
        [⟨"s2", some [⟨"/app", "rebuild", "", []⟩], false, []⟩]).result = true :=
  c6_rebuild_without_build_fails (fun _ => none) (some "/proj") []
    [⟨"s2", some [⟨"/app", "rebuild", "", []⟩], false, []⟩]
    ⟨"s2", some [⟨"/app", "rebuild", "", []⟩], false, []⟩
    [⟨"/app", "rebuild", "", []⟩]
    (by simp) rfl ⟨⟨"/app", "rebuild", "", []⟩, by simp, rfl⟩ rfl

/-! ## C7: empty trigger paths -/

theorem loadTriggers_ne_emptyErr (resolve : String → Option String)
    (baseDir serviceName : String) (hasBuild : Bool) (ts : List Trigger) :
    loadTriggers resolve baseDir serviceName hasBuild ts
      ≠ .error "watch rules MUST define a path" := by
  induction ts with
  | nil => simp [loadTriggers]
  | cons t rest ih =>
    unfold loadTriggers
    simp only []
    rw [if_neg (show ¬((resolveTrigger resolve baseDir t).Path = "") from
      goClean_ne_empty _)]
    by_cases h2 : (resolveTrigger resolve baseDir t).Action = WatchActionRebuild ∧ hasBuild = false
    · rw [if_pos h2]
      intro h
      injection h with h3
      have h5 : ("service " ++ serviceName ++ " does not have a build section, cannot apply rebuild on watch").data.head?
          = ("watch rules MUST define a path" : String).data.head? := by rw [h3]
      exact absurd (show (some 's' : Option Char) = some 'w' from h5) (by decide)
    · rw [if_neg h2]
      exact except_map_ne_error _ _ _ ih

/-- C7 amended: trigger resolution never rejects a trigger for an empty
path; the empty-path check of loadDevelopmentConfig is unreachable,
because an empty configured path is first joined onto the working
directory and cleaned, and filepath.Clean never returns an empty string
(an empty configured path therefore silently resolves to the working
directory instead of failing). -/
theorem c7_no_empty_path_rejection (resolve : String → Option String)
    (baseDir : Option String) (s : ServiceModel) :
    loadDevelopmentConfig resolve baseDir s
      ≠ .error "watch rules MUST define a path" := by
  unfold loadDevelopmentConfig
  cases s.xdevelop with
  | none => intro h; exact Except.noConfusion h
  | some ts =>
    cases baseDir with
    | none =>
      intro h
      injection h with h2
      exact absurd h2 (by decide)
    | some base =>
      exact except_map_ne_error _ _ _ (loadTriggers_ne_emptyErr resolve base s.name s.hasBuild ts)

/-- C7 counterexample.  The claim states a trigger whose configured path
is the empty string is rejected with an error.  Below, a trigger with
the empty path resolves successfully: the empty path is joined onto the
working directory and cleaned to the non-empty working directory path,
so resolution returns ok instead of the claimed error. -/
theorem c7_counterexample :
    loadDevelopmentConfig (fun _ => none) (some "/proj")
        ⟨"svc", some [⟨"", "sync", "", []⟩], true, []⟩
      = .ok (some [⟨"/proj", "sync", "", []⟩]) := rfl

/-- C7 witness: the amended theorem at the counterexample's
configuration. -/
theorem c7_witness :
    loadDevelopmentConfig (fun _ => none) (some "/proj")
        ⟨"svc", some [⟨"", "sync", "", []⟩], true, []⟩
      ≠ .error "watch rules MUST define a path" :=
  c7_no_empty_path_rejection (fun _ => none) (some "/proj")
    ⟨"svc", some [⟨"", "sync", "", []⟩], true, []⟩

/-! ## C8: error propagation of the dispatcher -/

theorem handleWatchBatchAux_isErr (sname : String) (up : Except String Unit)
    (gs : Except String String) (sf : String → List PathMapping → Except String Unit) :
    ∀ (batch : List fileEvent) (acc : List PathMapping),
      exceptIsErr (handleWatchBatchAux sname up gs sf batch acc).1 = true ↔
        ((∀ x ∈ batch, x.Action ≠ WatchActionRebuild) ∧
          (exceptIsErr gs = true ∨
            ∃ svc, gs = .ok svc ∧
              exceptIsErr (sf svc (acc ++ batch.map (fun ev => ev.pathMapping)))
                = true)) := by
  intro batch
  induction batch with
  | nil =>
    intro acc
    cases gs with
    | error e => simp [handleWatchBatchAux, exceptIsErr]
    | ok svc =>
      cases hs : sf svc acc with
      | error e => simp [handleWatchBatchAux, exceptIsErr, hs]
      | ok u => simp [handleWatchBatchAux, exceptIsErr, hs]
  | cons ev rest ih =>
    intro acc
    by_cases h : ev.Action = WatchActionRebuild
    · simp [handleWatchBatchAux, h, exceptIsErr]
    · simp only [handleWatchBatchAux, if_neg h]
      rw [ih (acc ++ [ev.pathMapping])]
      simp [h, List.append_assoc]

/-- C8: the dispatch of a batch returns an error exactly when the batch
contains no rebuild event and either the service lookup or the sync
collaborator invoked on the collected path mappings fails; in
particular, the result never depends on the rebuild collaborator's
outcome, so a failing rebuild still yields a nil result. -/
theorem c8_error_propagation (serviceName : String) (batch : List fileEvent)
    (upResult : Except String Unit) (getService : Except String String)
    (syncF : String → List PathMapping → Except String Unit) :
    exceptIsErr (handleWatchBatch serviceName batch upResult getService syncF).1 = true ↔
      ((∀ x ∈ batch, x.Action ≠ WatchActionRebuild) ∧
        (exceptIsErr getService = true ∨
          ∃ svc, getService = .ok svc ∧
            exceptIsErr (syncF svc (batch.map (fun ev => ev.pathMapping))) = true)) := by
  have h := handleWatchBatchAux_isErr serviceName upResult getService syncF batch []
  simpa using h

/-! ## C9: container path mapping -/

/-- C9: every event the classifier emits for a trigger with a non-empty
target carries as its container path the trigger target joined (with
forward-slash path.Join) with the host path made relative to the trigger
path by filepath.Rel; for an empty target the container path is left
unset (empty). -/
theorem c9_container_path_mapping (trigger : Trigger) (hostPath : String)
    (ignore : String → Except String Bool) (ev : fileEvent)
    (hev : maybeFileEvent trigger hostPath ignore = some ev) :
    (trigger.Target = "" → ev.pathMapping.ContainerPath = "") ∧
    (trigger.Target ≠ "" →
      ∃ rel, goRel trigger.Path hostPath = .ok rel ∧
        ev.pathMapping.ContainerPath = goPathJoin trigger.Target rel) := by
  unfold maybeFileEvent at hev
  split at hev
  · exact absurd hev (by simp)
  · cases hig : ignore hostPath with
    | error e => rw [hig] at hev; exact absurd hev (by simp)
    | ok b =>
      rw [hig] at hev
      cases b with
      | true => exact absurd hev (by simp)
      | false =>
        by_cases ht : trigger.Target ≠ ""
        · rw [if_pos ht] at hev
          cases hrel : goRel trigger.Path hostPath with
          | error e => rw [hrel] at hev; exact absurd hev (by simp)
          | ok rel =>
            rw [hrel] at hev
            injection hev with hev2
            constructor
            · intro h0; exact absurd h0 ht
            · intro _
              exact ⟨rel, rfl, by rw [← hev2]⟩
        · rw [if_neg ht] at hev
          injection hev with hev2
          constructor
          · intro _; rw [← hev2]
          · intro h0; exact absurd h0 ht

/-- C9 witness: the spec's example, trigger path /src with target /app
and a change at /src/pkg/file.go, mapping to /app/pkg/file.go. -/
theorem c9_witness :
    maybeFileEvent ⟨"/src", "sync", "/app", []⟩ "/src/pkg/file.go" (fun _ => .ok false)
        = some ⟨⟨"/src/pkg/file.go", "/app/pkg/file.go"⟩, "sync"⟩ ∧
    ∃ rel, goRel "/src" "/src/pkg/file.go" = .ok rel ∧
      ("/app/pkg/file.go" : String) = goPathJoin "/app" rel := by
  refine ⟨rfl, ?_⟩
  have h := c9_container_path_mapping ⟨"/src", "sync", "/app", []⟩ "/src/pkg/file.go"
    (fun _ => .ok false) ⟨⟨"/src/pkg/file.go", "/app/pkg/file.go"⟩, "sync"⟩ rfl
  exact h.2 (by decide)

/-! ## C10: bind-mount exclusion by raw string prefix -/

/-- C10: the bind-mount exclusion compares raw character sequences, not
path components: any trigger path that merely begins with the character
sequence of a bind volume source, without being that path or a
descendant of it, is reported as already bind mounted and excluded from
the collected watch paths. -/
theorem c10_bind_mount_raw_string_match (p : String) (v : ServiceVolumeConfig)
    (vs : List ServiceVolumeConfig) (ts : List Trigger)
    (hv : v ∈ vs) (hb : v.Bind = true) (hpre : strHasPre v.Source p = true)
    (_hne : p ≠ v.Source) (_hnc : isChild v.Source p = false) :
    checkIfPathAlreadyBindMounted p vs = true ∧ p ∉ collectPaths vs ts := by
  have hchk : checkIfPathAlreadyBindMounted p vs = true := by
    unfold checkIfPathAlreadyBindMounted
    rw [List.any_eq_true]
    exact ⟨v, hv, by rw [hb, hpre]; rfl⟩
  refine ⟨hchk, ?_⟩
  induction ts with
  | nil => simp [collectPaths]
  | cons t rest ih =>
    unfold collectPaths
    by_cases hc : checkIfPathAlreadyBindMounted t.Path vs = true
    · rw [if_pos hc]; exact ih
    · rw [if_neg hc]
      intro hmem
      rcases List.mem_cons.mp hmem with h | hmem2
      · rw [h] at hchk; exact hc hchk
      · exact ih hmem2

/-- C10 witness: volume source /a/b, trigger path /a/bc, which begins
with the character sequence of the source, differs from it and is not a
path-element descendant of it, yet is excluded from the watch set. -/
theorem c10_witness :
    checkIfPathAlreadyBindMounted "/a/bc" [⟨true, "/a/b"⟩] = true ∧
    ("/a/bc" : String) ∉ collectPaths [⟨true, "/a/b"⟩] [⟨"/a/bc", "sync", "", []⟩] :=
  c10_bind_mount_raw_string_match "/a/bc" ⟨true, "/a/b"⟩ [⟨true, "/a/b"⟩]
    [⟨"/a/bc", "sync", "", []⟩] (by simp) rfl (by decide) (by decide) (by decide)
